import Mathlib

/-!
Verification of the path-resolution and dataset-registration logic of
`src/zlflodata/get_paths.py` against its specification.

Modelling conventions for the shallow embedding:

* The YAML manifest (`repository.yaml`, key `data`) is modelled as an
  association list from dataset names to lists of version records; a record
  is itself an association list of string keys to `Val` values, mirroring
  the Python dicts produced by `yaml.load`.  Python dict lookup failure
  (`KeyError`), list indexing failure (`IndexError`) and subscripting or
  joining a non-dict/non-string (`TypeError`) are explicit error values.
* File input and output is made explicit: `get_abs_data_path` receives the
  parsed manifest in a context `Ctx` (the Python code re-reads
  `repository.yaml` on every call); `create_new_dataset` returns the
  manifest content it writes back.  Parse errors of the YAML file itself
  are outside the embedded fragment.
* `os.path.join` is modelled for POSIX separators (`ospath_join`);
  `pathlib.Path` construction on the joined string is modelled as the
  identity, and `os.path.isabs` as `isAbs`.
* The environment variable `ZLFLODATA_LOCATION` is the `env` field of the
  context; `os.environ.get(..., "")` yields `""` both for an unset and for
  an empty variable, so `env = ""` covers both.
* `os.path.exists` is the `pathExists` oracle of the context; the
  `logger.warning` call for a missing path is modelled as the returned
  list of warning strings (the unconditional `logger.info` line carries no
  information about the result and is not modelled).
* Python's `re.match(r"^\d+\.\d+\.\d+$", v)` anchors at the start, and `$`
  accepts either the end of the string or a position just before a single
  trailing newline; `is_valid_semver` below reproduces exactly that.  `\d` is
  modelled as an ASCII digit (Python additionally accepts other Unicode
  decimal digits, but no property here distinguishes them, since both the
  code's regex and the specified pattern use the same `\d`).
-/

/-- A YAML/Python value stored in a manifest record: a string, Python's
`None`, or a nested dict (association list). -/
inductive Val where
  | str (s : String)
  | vnone
  | vdict (entries : List (String × Val))

/-- One version record of a dataset: a Python dict with string keys. -/
abbrev Record := List (String × Val)

/-- The manifest's `data` mapping: dataset name to ordered version list. -/
abbrev Manifest := List (String × List Record)

/-- Python dict lookup `d[k]` returning `none` on a missing key. -/
def aget {α : Type} : List (String × α) → String → Option α
  | [], _ => none
  | p :: rest, key => if p.1 = key then some p.2 else aget rest key

/-- Python dict assignment `d[k] = v`: replace the value in place when the
key exists, otherwise append the new key at the end (insertion order). -/
def aset {α : Type} (m : List (String × α)) (key : String) (v : α) :
    List (String × α) :=
  if (aget m key).isSome then
    m.map fun p => if p.1 = key then (key, v) else p
  else
    m ++ [(key, v)]

/-- The exceptions the embedded fragment can raise.  Constructors tagged
with messages correspond one-to-one to the `raise` sites in
`get_paths.py`; `keyError`, `indexError`, `typeError` and `nameError` are
the Python runtime errors reachable from the embedded code.  In the
specification's taxonomy, the `invalid...` constructors are
`InvalidArgument`, `keyError` on a dataset name and `versionNotFound` are
`NotFound`, and `datasetExists` is `Conflict`. -/
inductive Err where
  | invalidParentFolder
  | invalidLocation
  | invalidVersionArg
  | versionNotFound
  | keyError (k : String)
  | indexError
  | typeError
  | nameError
  | datasetExists
  | invalidLocationCreate
  | invalidVersionCreate
deriving DecidableEq

/-- POSIX `os.path.isabs`: the path begins with the separator. -/
def isAbs (s : String) : Bool :=
  match s.data with
  | [] => false
  | c :: _ => c == '/'

/-- Whether a path's last character is the POSIX separator. -/
def endsWithSep (s : String) : Bool :=
  match s.data.getLast? with
  | some c => c == '/'
  | none => false

/-- POSIX `os.path.join(a, b)`: an absolute second component discards the
first; otherwise the separator is inserted unless the first component is
empty or already ends with it. -/
def ospath_join (a b : String) : String :=
  if isAbs b then b
  else if a = "" ∨ endsWithSep a then a ++ b
  else a ++ "/" ++ b

/-- `get_data_dir()`: `os.path.join(os.path.dirname(__file__), "data")`,
with the package directory `os.path.dirname(__file__)` as a parameter. -/
def get_data_dir (pkg_dir : String) : String :=
  ospath_join pkg_dir "data"

/-- Split a character list at every `'.'`, keeping empty groups, exactly
as the groups a `\d+(\.\d+)*`-style regex would have to fill. -/
def splitDots : List Char → List (List Char)
  | [] => [[]]
  | c :: rest =>
    let groups := splitDots rest
    if c = '.' then [] :: groups
    else
      match groups with
      | g :: gs => (c :: g) :: gs
      | [] => [[c]]

/-- A nonempty run of ASCII digits, the language of `\d+`. -/
def isDigitRun (g : List Char) : Bool :=
  !g.isEmpty && g.all Char.isDigit

/-- The anchored language of `^\d+\.\d+\.\d+$` read strictly (with `$` as
end of input): exactly three dot-separated nonempty digit runs. -/
def semverCoreList (cs : List Char) : Bool :=
  match splitDots cs with
  | [a, b, c] => isDigitRun a && isDigitRun b && isDigitRun c
  | _ => false

/-- Modelled from the spec: the version pattern `^\d+\.\d+\.\d+$` of the
data-model invariants, read as an anchored full match on the string. -/
def matchesSemverPatternSpec (v : String) : Bool :=
  semverCoreList v.data

/-- `is_valid_semver` from `get_paths.py`: Python's
`re.match(r"^\d+\.\d+\.\d+$", version)` is not `None`.  Python's `$`
also matches just before one trailing newline at the end of the string,
so `"1.0.0\n"` is accepted. -/
def is_valid_semver (version : String) : Bool :=
  semverCoreList version.data ||
    (match version.data.getLast? with
     | some c => c == '\n' && semverCoreList version.data.dropLast
     | none => false)

/-- The ambient state a call runs in: the environment variable
`ZLFLODATA_LOCATION` (`""` when unset), the package directory
`os.path.dirname(__file__)`, the `os.path.exists` oracle, and the parsed
`data` mapping of `repository.yaml`. -/
structure Ctx where
  env : String
  pkg_dir : String
  pathExists : String → Bool
  manifest : Manifest

/-- The list comprehension `[item["version_zlflo"] for item in rep[name]]`:
each record's `version_zlflo` value in order, raising `KeyError` at the
first record missing the key. -/
def versionsOrdered : List Record → Except Err (List Val)
  | [] => .ok []
  | item :: rest =>
    match aget item "version_zlflo" with
    | some v => (versionsOrdered rest).map (v :: ·)
    | none => .error (.keyError "version_zlflo")

/-- Python `==` between the requested version string and a manifest value:
true only for an equal string value. -/
def strEqVal (s : String) (v : Val) : Bool :=
  match v with
  | .str t => s == t
  | _ => false

/-- Python `version in versions_ordered`. -/
def strMem (s : String) (vs : List Val) : Bool :=
  vs.any (strEqVal s)

/-- Python `versions_ordered.index(version)`: index of the first equal
element (only evaluated under a successful membership test). -/
def strIndex (s : String) : List Val → Nat
  | [] => 0
  | v :: rest => if strEqVal s v then 0 else strIndex s rest + 1

/-- Lines 80-89 of `get_paths.py`: `"latest"` selects index 0 without
touching the manifest; any other (already validated) version string is
looked up by exact string match over `version_zlflo`, raising `KeyError`
for an unknown dataset name and `ValueError` ("Version not found in
repository.yaml") when no record matches. -/
def resolveIndex (rep : Manifest) (name version : String) : Except Err Nat :=
  if version = "latest" then .ok 0
  else
    match aget rep name with
    | none => .error (.keyError name)
    | some records =>
      (versionsOrdered records).bind fun vs =>
        if strMem version vs then .ok (strIndex version vs)
        else .error .versionNotFound

/-- The subscript chain `rep[name][version_index]` with its Python runtime
errors. -/
def recordAt (rep : Manifest) (name : String) (idx : Nat) : Except Err Record :=
  match aget rep name with
  | none => .error (.keyError name)
  | some records =>
    match records.get? idx with
    | some r => .ok r
    | none => .error .indexError

/-- The subscript chain `record["paths"][key]`, demanding a dict under
`"paths"` and a string at `key` (anything else is a `TypeError` when
subscripted or passed to `os.path.join`). -/
def pathField (record : Record) (key : String) : Except Err String :=
  match aget record "paths" with
  | none => .error (.keyError "paths")
  | some (.vdict paths) =>
    match aget paths key with
    | none => .error (.keyError key)
    | some (.str rel) => .ok rel
    | some _ => .error .typeError
  | some _ => .error .typeError

/-- Lines 91-97 of `get_paths.py`: choose the `repo` or `local` relative
path and join it onto the data directory respectively the (effective)
parent folder.  The trailing branch models the `NameError` Python would
raise on `abs_path` if neither condition held; location validation makes
it unreachable. -/
def buildPath (pkg_dir : String) (rep : Manifest) (name location lpf : String)
    (idx : Nat) : Except Err String :=
  if location = "repo" ∨ (location = "get_from_env" ∧ lpf = "") then
    (recordAt rep name idx).bind fun record =>
      (pathField record "repo").map fun rel =>
        ospath_join (get_data_dir pkg_dir) rel
  else if location = "local" ∨ (location = "get_from_env" ∧ lpf ≠ "") then
    (recordAt rep name idx).bind fun record =>
      (pathField record "local").map fun rel =>
        ospath_join lpf rel
  else
    .error .nameError

/-- Lines 60-97 of `get_abs_data_path`: the pure computation of the path.
The argument check on `local_parent_folder` runs before the environment
override is read; afterwards the Python variable `local_parent_folder` is
rebound to the override whenever `location == "get_from_env"` (`lpf`
here). -/
def resolve_core (env pkg_dir : String) (rep : Manifest)
    (name version location local_parent_folder : String) : Except Err String :=
  if local_parent_folder ≠ "" ∧ location ≠ "local" then
    .error .invalidParentFolder
  else
    let lpf := if location = "get_from_env" then env else local_parent_folder
    if ¬ (location = "get_from_env" ∨ location = "repo" ∨ location = "local") then
      .error .invalidLocation
    else if ¬ (is_valid_semver version = true ∨ version = "latest") then
      .error .invalidVersionArg
    else
      (resolveIndex rep name version).bind fun idx =>
        buildPath pkg_dir rep name location lpf idx

/-- Lines 99-104: log a warning when the computed path does not exist on
disk, and return the path (the `Path(abs_path)` wrapper is the identity on
the joined string). -/
def finish (ctx : Ctx) (abs_path : String) : String × List String :=
  (abs_path,
   if ctx.pathExists abs_path then [] else ["Path does not exist: " ++ abs_path])

/-- `get_abs_data_path(name, version, location, local_parent_folder)`:
the returned path together with the warnings logged on the way out. -/
def get_abs_data_path (ctx : Ctx)
    (name version location local_parent_folder : String) :
    Except Err (String × List String) :=
  (resolve_core ctx.env ctx.pkg_dir ctx.manifest
      name version location local_parent_folder).map (finish ctx)

/-- The fresh record `new_entry` of `create_new_dataset` before the
keyword-argument update, with the creation date (Amsterdam-time
`%Y-%m-%d`) as a parameter. -/
def new_entry (name version today : String) : Record :=
  [("version_zlflo", Val.str version),
   ("owner", Val.vnone),
   ("publication_date", Val.str today),
   ("version_owner", Val.str version),
   ("description_short", Val.vnone),
   ("description_long", Val.vnone),
   ("contact", Val.vnone),
   ("timezone", Val.str "Europe/Amsterdam"),
   ("extent", Val.str ""),
   ("paths", Val.vdict
     [("local", Val.str (name ++ "/v" ++ version)),
      ("zlflo_server", Val.str ("/data/" ++ name ++ "/v" ++ version)),
      ("repo", Val.str ("public/" ++ name ++ "/v" ++ version))]),
   ("changelog", Val.vdict
     [("previous_version", Val.str "0.0.0"),
      ("log", Val.str "Initial version")])]

/-- Python `dict.update(kwargs)`: later pairs overwrite existing keys in
place and append new keys in order. -/
def dictUpdate (d : Record) (kvs : List (String × Val)) : Record :=
  kvs.foldl (fun acc kv => aset acc kv.1 kv.2) d

/-- What a successful `create_new_dataset` call leaves behind: the `data`
mapping written back to `repository.yaml` (serialised with
`sort_keys=False`, so list order is the dict order modelled here) and the
directories created on disk. -/
structure CreateOut where
  written : Manifest
  dirsMade : List String

/-- `create_new_dataset(name, version, location, makedirs, **kwargs)` from
`get_paths.py`, with the manifest read from the context and the creation
date a parameter.  The directory-creation branch keeps the source's guard
`makedirs and location == "public"` verbatim. -/
def create_new_dataset (ctx : Ctx) (today name version location : String)
    (makedirs : Bool) (kwargs : List (String × Val)) : Except Err CreateOut :=
  let rep := ctx.manifest
  if (aget rep name).isSome then .error .datasetExists
  else if ¬ (location = "repo" ∨ location = "local") then
    .error .invalidLocationCreate
  else if ¬ (is_valid_semver version = true) then
    .error .invalidVersionCreate
  else
    let entry := dictUpdate (new_entry name version today) kwargs
    let dirs : List String :=
      if makedirs ∧ location = "public" then
        [ospath_join
          (ospath_join (ospath_join (get_data_dir ctx.pkg_dir) "public") name)
          ("v" ++ version)]
      else []
    .ok { written := aset rep name [entry], dirsMade := dirs }

/-- The effect of a `create_new_dataset` call on the manifest file: every
`raise` in the function precedes the write of `repository.yaml`, so the
file content is unchanged on every error path and the updated mapping on
success. -/
def create_new_dataset_run (ctx : Ctx) (today name version location : String)
    (makedirs : Bool) (kwargs : List (String × Val)) :
    Manifest × Except Err CreateOut :=
  match create_new_dataset ctx today name version location makedirs kwargs with
  | .ok out => (out.written, .ok out)
  | .error e => (ctx.manifest, .error e)

/-- The `acme` record of the specification's scenario section. -/
def acmeRecord : Record :=
  [("version_zlflo", Val.str "2.1.0"),
   ("paths", Val.vdict
     [("repo", Val.str "public/acme/v2.1.0"),
      ("local", Val.str "acme/v2.1.0"),
      ("zlflo_server", Val.str "/data/acme/v2.1.0")])]

/-- A concrete manifest with the single dataset `acme`. -/
def sampleManifest : Manifest := [("acme", [acmeRecord])]

/-- A concrete context: environment variable unset, absolute package
directory, nothing existing on disk. -/
def sampleCtx : Ctx :=
  { env := "", pkg_dir := "/pkg/zlflodata", pathExists := fun _ => false,
    manifest := sampleManifest }

/-- The same context with `ZLFLODATA_LOCATION` set to `/mnt/ext`. -/
def sampleCtxEnv : Ctx :=
  { sampleCtx with env := "/mnt/ext" }

/-- The output of registering a dataset `foo` with the default arguments
(version `1.0.0`, location `repo`, no keyword arguments) on the sample
manifest. -/
def sampleCreateOut : CreateOut :=
  { written := aset sampleManifest "foo"
      [dictUpdate (new_entry "foo" "1.0.0" "2026-10-12") []],
    dirsMade := [] }

/-! ## General lemmas about the embedded primitives -/

theorem aget_append_fresh {α : Type} (m : List (String × α)) (key : String)
    (v : α) (h : aget m key = none) : aget (m ++ [(key, v)]) key = some v := by
  induction m with
  | nil => simp [aget]
  | cons p rest ih =>
    by_cases hk : p.1 = key
    · simp [aget, hk] at h
    · simp only [List.cons_append, aget, hk, if_false] at h ⊢
      exact ih h

theorem ospath_join_suffix (a b : String) : ∃ pre, ospath_join a b = pre ++ b := by
  unfold ospath_join
  split
  · exact ⟨"", by simp⟩
  · split
    · exact ⟨a, rfl⟩
    · exact ⟨a ++ "/", rfl⟩

theorem isAbs_append (a b : String) (h : isAbs a = true) :
    isAbs (a ++ b) = true := by
  unfold isAbs at h ⊢
  rw [String.data_append]
  cases hd : a.data with
  | nil => rw [hd] at h; simp at h
  | cons c cs =>
    rw [hd] at h
    simpa using h

theorem ospath_join_isAbs (a b : String) (h : isAbs a = true) :
    isAbs (ospath_join a b) = true := by
  unfold ospath_join
  by_cases hb : isAbs b = true
  · simp [hb]
  · rw [if_neg (by simpa using hb)]
    by_cases hae : a = "" ∨ endsWithSep a
    · rw [if_pos hae]
      rcases hae with ha | _
      · subst ha; simp [isAbs] at h
      · exact isAbs_append a b h
    · rw [if_neg hae]
      exact isAbs_append (a ++ "/") b (isAbs_append a "/" h)

theorem versionsOrdered_error (records : List Record) (e : Err)
    (h : versionsOrdered records = .error e) : e = .keyError "version_zlflo" := by
  induction records with
  | nil => simp [versionsOrdered] at h
  | cons item rest ih =>
    unfold versionsOrdered at h
    cases hk : aget item "version_zlflo" with
    | none => rw [hk] at h; simp at h; exact h.symm
    | some v =>
      rw [hk] at h
      cases hr : versionsOrdered rest with
      | error e2 =>
        rw [hr] at h
        simp [Except.map] at h
        subst h
        exact ih hr
      | ok vs => rw [hr] at h; simp [Except.map] at h

theorem resolveIndex_error (rep : Manifest) (name version : String) (e : Err)
    (h : resolveIndex rep name version = .error e) :
    (∃ k, e = .keyError k) ∨ e = .versionNotFound := by
  unfold resolveIndex at h
  split at h
  · simp at h
  · cases hn : aget rep name with
    | none => rw [hn] at h; simp at h; exact .inl ⟨name, h.symm⟩
    | some records =>
      rw [hn] at h
      simp only [] at h
      cases hv : versionsOrdered records with
      | error e2 =>
        rw [hv] at h
        simp [Except.bind] at h
        rw [← h]
        exact .inl ⟨"version_zlflo", versionsOrdered_error records e2 hv⟩
      | ok vs =>
        rw [hv] at h
        simp [Except.bind] at h
        split at h
        · simp at h
        · simp at h; exact .inr h.symm

theorem recordAt_error (rep : Manifest) (name : String) (idx : Nat) (e : Err)
    (h : recordAt rep name idx = .error e) :
    e = .keyError name ∨ e = .indexError := by
  unfold recordAt at h
  cases hn : aget rep name with
  | none => rw [hn] at h; simp at h; exact .inl h.symm
  | some records =>
    rw [hn] at h
    simp only [] at h
    cases hg : records.get? idx with
    | none => rw [hg] at h; simp at h; exact .inr h.symm
    | some r => rw [hg] at h; simp at h

theorem pathField_error (record : Record) (key : String) (e : Err)
    (h : pathField record key = .error e) :
    (∃ k, e = .keyError k) ∨ e = .typeError := by
  unfold pathField at h
  cases hp : aget record "paths" with
  | none => rw [hp] at h; simp at h; exact .inl ⟨"paths", h.symm⟩
  | some v =>
    rw [hp] at h
    cases v with
    | str s => simp at h; exact .inr h.symm
    | vnone => simp at h; exact .inr h.symm
    | vdict paths =>
      simp only [] at h
      cases hk : aget paths key with
      | none => rw [hk] at h; simp at h; exact .inl ⟨key, h.symm⟩
      | some w =>
        rw [hk] at h
        cases w with
        | str rel => simp at h
        | vnone => simp at h; exact .inr h.symm
        | vdict entries => simp at h; exact .inr h.symm

theorem buildPath_error (pkg_dir : String) (rep : Manifest)
    (name location lpf : String) (idx : Nat) (e : Err)
    (h : buildPath pkg_dir rep name location lpf idx = .error e) :
    (∃ k, e = .keyError k) ∨ e = .indexError ∨ e = .typeError ∨ e = .nameError := by
  unfold buildPath at h
  split at h
  · cases hr : recordAt rep name idx with
    | error e2 =>
      rw [hr] at h
      simp [Except.bind] at h
      rw [← h]
      rcases recordAt_error rep name idx e2 hr with h2 | h2
      · exact .inl ⟨name, h2⟩
      · exact .inr (.inl h2)
    | ok record =>
      rw [hr] at h
      simp only [Except.bind] at h
      cases hp : pathField record "repo" with
      | error e2 =>
        rw [hp] at h
        simp [Except.map] at h
        rw [← h]
        rcases pathField_error record "repo" e2 hp with ⟨k, h2⟩ | h2
        · exact .inl ⟨k, h2⟩
        · exact .inr (.inr (.inl h2))
      | ok rel => rw [hp] at h; simp [Except.map] at h
  · split at h
    · cases hr : recordAt rep name idx with
      | error e2 =>
        rw [hr] at h
        simp [Except.bind] at h
        rw [← h]
        rcases recordAt_error rep name idx e2 hr with h2 | h2
        · exact .inl ⟨name, h2⟩
        · exact .inr (.inl h2)
      | ok record =>
        rw [hr] at h
        simp only [Except.bind] at h
        cases hp : pathField record "local" with
        | error e2 =>
          rw [hp] at h
          simp [Except.map] at h
          rw [← h]
          rcases pathField_error record "local" e2 hp with ⟨k, h2⟩ | h2
          · exact .inl ⟨k, h2⟩
          · exact .inr (.inr (.inl h2))
        | ok rel => rw [hp] at h; simp [Except.map] at h
    · simp at h; exact .inr (.inr (.inr h.symm))

/-! ## Behaviour of `get_abs_data_path` on the happy path -/

theorem resolve_latest_repo (ctx : Ctx) (name rel : String)
    (r : Record) (rs : List Record) (paths : List (String × Val))
    (hname : aget ctx.manifest name = some (r :: rs))
    (hpaths : aget r "paths" = some (Val.vdict paths))
    (hrepo : aget paths "repo" = some (Val.str rel)) :
    get_abs_data_path ctx name "latest" "repo" "" =
      .ok (finish ctx (ospath_join (get_data_dir ctx.pkg_dir) rel)) := by
  simp [get_abs_data_path, resolve_core, resolveIndex, buildPath, recordAt,
    pathField, hname, hpaths, hrepo, Except.bind, Except.map, List.get?]

theorem get_error_iff (ctx : Ctx) (name version location lpf : String) (e : Err) :
    get_abs_data_path ctx name version location lpf = .error e ↔
      resolve_core ctx.env ctx.pkg_dir ctx.manifest name version location lpf =
        .error e := by
  unfold get_abs_data_path
  cases resolve_core ctx.env ctx.pkg_dir ctx.manifest name version location lpf <;>
    simp [Except.map]

theorem bind_build_err (pkg_dir : String) (rep : Manifest)
    (name version location lpf : String) (e : Err)
    (h : (resolveIndex rep name version).bind
        (buildPath pkg_dir rep name location lpf) = .error e) :
    (∃ k, e = .keyError k) ∨ e = .versionNotFound ∨ e = .indexError ∨
      e = .typeError ∨ e = .nameError := by
  cases hri : resolveIndex rep name version with
  | error e2 =>
    rw [hri] at h
    simp [Except.bind] at h
    subst h
    rcases resolveIndex_error rep name version e2 hri with ⟨k, hk⟩ | hk
    · exact .inl ⟨k, hk⟩
    · exact .inr (.inl hk)
  | ok idx =>
    rw [hri] at h
    simp only [Except.bind] at h
    rcases buildPath_error pkg_dir rep name location lpf idx e h with ⟨k, hk⟩ | hk | hk | hk
    · exact .inl ⟨k, hk⟩
    · exact .inr (.inr (.inl hk))
    · exact .inr (.inr (.inr (.inl hk)))
    · exact .inr (.inr (.inr (.inr hk)))

theorem resolve_core_classify (env pkg_dir : String) (rep : Manifest)
    (name version location lpf : String) :
    (resolve_core env pkg_dir rep name version location lpf =
        .error .invalidParentFolder ↔ (lpf ≠ "" ∧ location ≠ "local")) ∧
    (resolve_core env pkg_dir rep name version location lpf =
        .error .invalidVersionArg ↔
      (¬(lpf ≠ "" ∧ location ≠ "local") ∧
        (location = "get_from_env" ∨ location = "repo" ∨ location = "local") ∧
        version ≠ "latest" ∧ is_valid_semver version = false)) := by
  by_cases h1 : lpf ≠ "" ∧ location ≠ "local"
  · have hc : resolve_core env pkg_dir rep name version location lpf =
        .error .invalidParentFolder := by
      simp only [resolve_core, if_pos h1]
    rw [hc]
    exact ⟨iff_of_true rfl h1, iff_of_false (by simp) fun h2 => h2.1 h1⟩
  · have hcore : resolve_core env pkg_dir rep name version location lpf =
        (if ¬ (location = "get_from_env" ∨ location = "repo" ∨ location = "local") then
          .error .invalidLocation
        else if ¬ (is_valid_semver version = true ∨ version = "latest") then
          .error .invalidVersionArg
        else
          (resolveIndex rep name version).bind
            (buildPath pkg_dir rep name location
              (if location = "get_from_env" then env else lpf))) := by
      simp only [resolve_core, if_neg h1]
    rw [hcore]
    by_cases hloc : location = "get_from_env" ∨ location = "repo" ∨ location = "local"
    · rw [if_neg (not_not_intro hloc)]
      by_cases hver : is_valid_semver version = true ∨ version = "latest"
      · rw [if_neg (not_not_intro hver)]
        refine ⟨⟨fun hE => ?_, fun h2 => absurd h2 h1⟩,
          ⟨fun hE => ?_, fun h2 => ?_⟩⟩
        · rcases bind_build_err _ _ _ _ _ _ _ hE with ⟨k, hk⟩ | hk | hk | hk | hk <;>
            simp at hk
        · rcases bind_build_err _ _ _ _ _ _ _ hE with ⟨k, hk⟩ | hk | hk | hk | hk <;>
            simp at hk
        · obtain ⟨-, -, hne, hval⟩ := h2
          rcases hver with hv | hv
          · exact absurd hval (by simp [hv])
          · exact absurd hv hne
      · rw [if_pos hver]
        have hval : is_valid_semver version = false := by
          cases hbool : is_valid_semver version
          · rfl
          · exact absurd (.inl hbool) hver
        refine ⟨iff_of_false (by simp) fun h2 => h1 h2, ?_⟩
        exact iff_of_true rfl ⟨h1, hloc, fun hl => hver (.inr hl), hval⟩
    · rw [if_pos hloc]
      exact ⟨iff_of_false (by simp) fun h2 => h1 h2,
        iff_of_false (by simp) fun h2 => hloc h2.2.1⟩

/-- C1: for every dataset name present in the manifest, resolving version
`"latest"` with location `"repo"` selects the version record at index 0 of
the dataset's version list and returns the package data directory joined
with that record's `paths.repo` value. -/
theorem latest_selects_index_zero (ctx : Ctx) (name rel : String)
    (r : Record) (rs : List Record) (paths : List (String × Val))
    (hname : aget ctx.manifest name = some (r :: rs))
    (hpaths : aget r "paths" = some (Val.vdict paths))
    (hrepo : aget paths "repo" = some (Val.str rel)) :
    get_abs_data_path ctx name "latest" "repo" "" =
      .ok (finish ctx (ospath_join (get_data_dir ctx.pkg_dir) rel)) :=
  resolve_latest_repo ctx name rel r rs paths hname hpaths hrepo

/-- Witness for C1 on the sample manifest: `acme` resolves to the data
directory joined with `public/acme/v2.1.0`. -/
theorem latest_selects_index_zero_witness :
    get_abs_data_path sampleCtx "acme" "latest" "repo" "" =
      .ok (finish sampleCtx
        (ospath_join (get_data_dir sampleCtx.pkg_dir) "public/acme/v2.1.0")) :=
  latest_selects_index_zero sampleCtx "acme" "public/acme/v2.1.0" acmeRecord []
    [("repo", Val.str "public/acme/v2.1.0"),
     ("local", Val.str "acme/v2.1.0"),
     ("zlflo_server", Val.str "/data/acme/v2.1.0")] rfl rfl rfl

/-- Counterexample to C2 as stated: with the environment override set to
the non-empty string `/mnt/ext` (so the location resolves to `local`), a
supplied `local_parent_folder` is still rejected with the
`local_parent_folder` `ValueError`, because the check runs on the literal
`location` argument before the environment variable is read. -/
theorem parent_folder_env_counterexample :
    sampleCtxEnv.env = "/mnt/ext" ∧
    get_abs_data_path sampleCtxEnv "acme" "latest" "get_from_env" "/mnt/ext" =
      .error .invalidParentFolder :=
  ⟨rfl, rfl⟩

/-- C2 (amended): `get_abs_data_path` fails with the `local_parent_folder`
`ValueError` exactly when a non-empty `local_parent_folder` is supplied
while the `location` argument is not literally `"local"`; in particular
with `location="repo"` it always fails, and with `location="get_from_env"`
it also always fails, regardless of the environment override. -/
theorem parent_folder_check_iff (ctx : Ctx) (name version location lpf : String) :
    get_abs_data_path ctx name version location lpf = .error .invalidParentFolder ↔
      (lpf ≠ "" ∧ location ≠ "local") :=
  (get_error_iff ctx name version location lpf .invalidParentFolder).trans
    (resolve_core_classify ctx.env ctx.pkg_dir ctx.manifest
      name version location lpf).1

/-- C4: with the override variable non-empty, resolving with the default
`get_from_env` location is the same call as an explicit `local` location
with the override as parent folder; with the override unset or empty it is
the same call as the `repo` location — errors, path and warning
included. -/
theorem env_override_equivalence (ctx : Ctx) (name version : String) :
    (ctx.env ≠ "" →
      get_abs_data_path ctx name version "get_from_env" "" =
        get_abs_data_path ctx name version "local" ctx.env) ∧
    (ctx.env = "" →
      get_abs_data_path ctx name version "get_from_env" "" =
        get_abs_data_path ctx name version "repo" "") := by
  constructor <;> intro h <;>
    simp [get_abs_data_path, resolve_core, buildPath, h]

/-- Witness for C4: on the sample contexts, the `get_from_env` call
coincides with the explicit `local` call when the override is `/mnt/ext`,
and with the `repo` call when the override is empty. -/
theorem env_override_equivalence_witness :
    (get_abs_data_path sampleCtxEnv "acme" "2.1.0" "get_from_env" "" =
      get_abs_data_path sampleCtxEnv "acme" "2.1.0" "local" sampleCtxEnv.env) ∧
    (get_abs_data_path sampleCtx "acme" "latest" "get_from_env" "" =
      get_abs_data_path sampleCtx "acme" "latest" "repo" "") :=
  ⟨(env_override_equivalence sampleCtxEnv "acme" "2.1.0").1 (by decide),
   (env_override_equivalence sampleCtx "acme" "latest").2 rfl⟩

/-- C6: creating a dataset whose name is already a key of the manifest
always fails with the already-exists `ValueError` and leaves the manifest
file content unchanged, whatever the other arguments are. -/
theorem create_conflict_no_write (ctx : Ctx) (today name version location : String)
    (makedirs : Bool) (kwargs : List (String × Val))
    (hpresent : (aget ctx.manifest name).isSome = true) :
    create_new_dataset_run ctx today name version location makedirs kwargs =
      (ctx.manifest, .error .datasetExists) := by
  simp [create_new_dataset_run, create_new_dataset, hpresent]

/-- Witness for C6: re-creating `acme` on the sample manifest fails with
the conflict error and writes nothing. -/
theorem create_conflict_no_write_witness :
    create_new_dataset_run sampleCtx "2026-10-12" "acme" "9.9.9" "local" false
        [("owner", Val.str "x")] =
      (sampleCtx.manifest, .error .datasetExists) :=
  create_conflict_no_write sampleCtx "2026-10-12" "acme" "9.9.9" "local" false
    [("owner", Val.str "x")] rfl

/-- C8: a call to `create_new_dataset` that succeeds (so its `location`
passed the `{repo, local}` validation) never creates a directory: the
directory-creation guard compares `location` against `"public"`, which the
validation never admits. -/
theorem create_never_makes_dirs (ctx : Ctx) (today name version location : String)
    (makedirs : Bool) (kwargs : List (String × Val)) (out : CreateOut)
    (h : create_new_dataset ctx today name version location makedirs kwargs = .ok out) :
    out.dirsMade = [] := by
  by_cases h0 : (aget ctx.manifest name).isSome = true
  · simp [create_new_dataset, h0] at h
  · by_cases hloc : location = "repo" ∨ location = "local"
    · by_cases hver : is_valid_semver version = true
      · rcases hloc with h2 | h2 <;> subst h2 <;>
          simp [create_new_dataset, h0, hver] at h <;>
          rw [← h]
      · rcases hloc with h2 | h2 <;> subst h2 <;>
          simp [create_new_dataset, h0, hver] at h
    · have hcond : ¬¬(location = "repo" ∨ location = "local") → False :=
        fun hc => hc hloc
      simp [create_new_dataset, h0, hloc] at h

/-- Witness for C8: creating `foo` on the sample manifest succeeds and
creates no directory. -/
theorem create_never_makes_dirs_witness :
    create_new_dataset sampleCtx "2026-10-12" "foo" "1.0.0" "repo" true [] =
      .ok sampleCreateOut ∧ sampleCreateOut.dirsMade = [] :=
  ⟨rfl, create_never_makes_dirs sampleCtx "2026-10-12" "foo" "1.0.0" "repo" true []
    sampleCreateOut rfl⟩

/-- C10: for fixed name, version, creation date, keyword arguments and
manifest, `create_new_dataset` behaves identically for the two accepted
locations `"repo"` and `"local"`: the same record and manifest are
written (or the same error raised) and the same — no — directories are
created. -/
theorem create_location_independent (ctx : Ctx) (today name version : String)
    (makedirs : Bool) (kwargs : List (String × Val)) :
    create_new_dataset_run ctx today name version "repo" makedirs kwargs =
      create_new_dataset_run ctx today name version "local" makedirs kwargs := by
  by_cases hver : is_valid_semver version = true <;>
    simp [create_new_dataset_run, create_new_dataset, hver]

/-! ## Not-found behaviour, round trip, version validation, result shape -/

theorem resolve_core_unfold (env pkg_dir : String) (rep : Manifest)
    (name version location lpf : String)
    (h1 : ¬(lpf ≠ "" ∧ location ≠ "local")) :
    resolve_core env pkg_dir rep name version location lpf =
      (if ¬ (location = "get_from_env" ∨ location = "repo" ∨ location = "local") then
        .error .invalidLocation
      else if ¬ (is_valid_semver version = true ∨ version = "latest") then
        .error .invalidVersionArg
      else
        (resolveIndex rep name version).bind
          (buildPath pkg_dir rep name location
            (if location = "get_from_env" then env else lpf))) := by
  simp only [resolve_core, if_neg h1]

theorem buildPath_absent (pkg_dir : String) (rep : Manifest)
    (name location lpf : String) (idx : Nat)
    (hn : aget rep name = none)
    (hloc : location = "get_from_env" ∨ location = "repo" ∨ location = "local") :
    buildPath pkg_dir rep name location lpf idx = .error (.keyError name) := by
  rcases hloc with h | h | h <;> subst h
  · by_cases hl : lpf = "" <;> simp [buildPath, hl, recordAt, hn, Except.bind]
  · simp [buildPath, recordAt, hn, Except.bind]
  · simp [buildPath, recordAt, hn, Except.bind]

/-- C3: for a call whose location, parent-folder combination and version
syntax pass validation, resolution fails with the `KeyError` carrying the
dataset name when the name is absent from the manifest, and fails with
the "Version not found" `ValueError` when the name is present but no
record's `version_zlflo` string-equals the requested semver version; these
are the two `NotFound` outcomes of the specification. -/
theorem resolve_not_found (ctx : Ctx) (name version location lpf : String)
    (hloc : location = "get_from_env" ∨ location = "repo" ∨ location = "local")
    (hlpf : lpf = "" ∨ location = "local")
    (hver : is_valid_semver version = true ∨ version = "latest") :
    (aget ctx.manifest name = none →
      get_abs_data_path ctx name version location lpf = .error (.keyError name)) ∧
    (∀ records vs, aget ctx.manifest name = some records →
      is_valid_semver version = true →
      versionsOrdered records = .ok vs →
      strMem version vs = false →
      get_abs_data_path ctx name version location lpf = .error .versionNotFound) := by
  have hn1 : ¬(lpf ≠ "" ∧ location ≠ "local") := by
    rcases hlpf with h | h
    · exact fun hc => hc.1 h
    · exact fun hc => hc.2 h
  constructor
  · intro hn
    rw [get_error_iff,
      resolve_core_unfold ctx.env ctx.pkg_dir ctx.manifest name version location lpf hn1,
      if_neg (not_not_intro hloc), if_neg (not_not_intro hver)]
    by_cases hlat : version = "latest"
    · subst hlat
      have hri : resolveIndex ctx.manifest name "latest" = .ok 0 := rfl
      rw [hri]
      simp only [Except.bind]
      exact buildPath_absent ctx.pkg_dir ctx.manifest name location _ 0 hn hloc
    · have hri : resolveIndex ctx.manifest name version = .error (.keyError name) := by
        simp [resolveIndex, hlat, hn]
      rw [hri]
      simp [Except.bind]
  · intro records vs hrec hsem hvs hmem
    have hlat : version ≠ "latest" := by
      intro hl
      rw [hl] at hsem
      exact absurd hsem (by decide)
    rw [get_error_iff,
      resolve_core_unfold ctx.env ctx.pkg_dir ctx.manifest name version location lpf hn1,
      if_neg (not_not_intro hloc), if_neg (not_not_intro hver)]
    have hri : resolveIndex ctx.manifest name version = .error .versionNotFound := by
      simp [resolveIndex, hlat, hrec, hvs, Except.bind, hmem]
    rw [hri]
    simp [Except.bind]

/-- Witness for C3: on the sample manifest, the unknown name `ghost`
fails with its `KeyError`, and the unknown version `9.9.9` of `acme`
fails with the version-not-found error. -/
theorem resolve_not_found_witness :
    get_abs_data_path sampleCtx "ghost" "latest" "repo" "" =
      .error (.keyError "ghost") ∧
    get_abs_data_path sampleCtx "acme" "9.9.9" "repo" "" =
      .error .versionNotFound := by
  constructor
  · exact (resolve_not_found sampleCtx "ghost" "latest" "repo" ""
      (.inr (.inl rfl)) (.inl rfl) (.inr rfl)).1 rfl
  · exact (resolve_not_found sampleCtx "acme" "9.9.9" "repo" ""
      (.inr (.inl rfl)) (.inl rfl) (.inl (by decide))).2
      [acmeRecord] [Val.str "2.1.0"] rfl (by decide) rfl (by decide)

/-- C5: registering a fresh dataset name with the default version `1.0.0`
and location `repo` succeeds, and resolving it afterwards with
`latest`/`repo` returns a path that ends in `public/{name}/v1.0.0`. -/
theorem create_then_resolve_roundtrip (ctx : Ctx) (today name : String)
    (hfresh : aget ctx.manifest name = none) :
    ∃ out p w pre,
      create_new_dataset ctx today name "1.0.0" "repo" true [] = .ok out ∧
      get_abs_data_path { ctx with manifest := out.written } name "latest" "repo" "" =
        .ok (p, w) ∧
      p = pre ++ ("public/" ++ name ++ "/v" ++ "1.0.0") := by
  have hsem : is_valid_semver "1.0.0" = true := by decide
  have hcreate : create_new_dataset ctx today name "1.0.0" "repo" true [] =
      .ok { written := ctx.manifest ++ [(name, [new_entry name "1.0.0" today])],
            dirsMade := [] } := by
    simp [create_new_dataset, hfresh, aset, dictUpdate, hsem]
  obtain ⟨pre, hpre⟩ :=
    ospath_join_suffix (get_data_dir ctx.pkg_dir) ("public/" ++ name ++ "/v" ++ "1.0.0")
  have hget := resolve_latest_repo
    { ctx with manifest := ctx.manifest ++ [(name, [new_entry name "1.0.0" today])] }
    name ("public/" ++ name ++ "/v" ++ "1.0.0") (new_entry name "1.0.0" today) []
    [("local", Val.str (name ++ "/v" ++ "1.0.0")),
     ("zlflo_server", Val.str ("/data/" ++ name ++ "/v" ++ "1.0.0")),
     ("repo", Val.str ("public/" ++ name ++ "/v" ++ "1.0.0"))]
    (aget_append_fresh ctx.manifest name [new_entry name "1.0.0" today] hfresh)
    (by simp [new_entry, aget]) (by simp [aget])
  exact ⟨_, _, _, pre, hcreate, hget, hpre⟩

/-- Witness for C5: creating `foo` on the sample manifest and resolving
it yields a path ending in `public/foo/v1.0.0`. -/
theorem create_then_resolve_roundtrip_witness :
    ∃ out p w pre,
      create_new_dataset sampleCtx "2026-10-12" "foo" "1.0.0" "repo" true [] = .ok out ∧
      get_abs_data_path { sampleCtx with manifest := out.written } "foo" "latest" "repo" "" =
        .ok (p, w) ∧
      p = pre ++ ("public/" ++ "foo" ++ "/v" ++ "1.0.0") :=
  create_then_resolve_roundtrip sampleCtx "2026-10-12" "foo" rfl

/-- Counterexample to C7 as stated: the string made of `1.0.0` followed by
one newline does not match `^\d+\.\d+\.\d+$` read as an anchored full
match, yet `is_valid_semver` accepts it (Python's `$` also matches just
before a single trailing newline), and `get_abs_data_path` consequently
reports that version as not found instead of rejecting it as an invalid
argument. -/
theorem semver_trailing_newline_counterexample :
    matchesSemverPatternSpec "1.0.0\n" = false ∧
    is_valid_semver "1.0.0\n" = true ∧
    get_abs_data_path sampleCtx "acme" "1.0.0\n" "repo" "" =
      .error .versionNotFound :=
  ⟨by decide, by decide, rfl⟩

/-- C7 (amended): `is_valid_semver` accepts exactly the strings matching
`^\d+\.\d+\.\d+$` as a full match or as a full match followed by one
trailing newline; and, once the parent-folder and location checks pass,
`get_abs_data_path` fails with the invalid-version `ValueError` exactly
when the version is neither `"latest"` nor accepted by
`is_valid_semver`. -/
theorem semver_validation_iff (ctx : Ctx) (name version location lpf : String)
    (hloc : location = "get_from_env" ∨ location = "repo" ∨ location = "local")
    (hlpf : lpf = "" ∨ location = "local") :
    (is_valid_semver version = true ↔
      (matchesSemverPatternSpec version = true ∨
        (version.data.getLast? = some '\n' ∧
          semverCoreList version.data.dropLast = true))) ∧
    (get_abs_data_path ctx name version location lpf = .error .invalidVersionArg ↔
      (version ≠ "latest" ∧ is_valid_semver version = false)) := by
  constructor
  · unfold is_valid_semver matchesSemverPatternSpec
    cases hl : version.data.getLast? with
    | none => simp
    | some c =>
      by_cases hc : c = '\n'
      · subst hc; simp
      · simp [hc]
  · have hn1 : ¬(lpf ≠ "" ∧ location ≠ "local") := by
      rcases hlpf with h | h
      · exact fun hc => hc.1 h
      · exact fun hc => hc.2 h
    rw [get_error_iff,
      (resolve_core_classify ctx.env ctx.pkg_dir ctx.manifest
        name version location lpf).2]
    constructor
    · rintro ⟨-, -, hne, hval⟩
      exact ⟨hne, hval⟩
    · rintro ⟨hne, hval⟩
      exact ⟨hn1, hloc, hne, hval⟩

/-- Witness for C7 (amended) at the malformed version `1.2` with location
`repo`: the validity characterisation holds and the call fails with the
invalid-version error. -/
theorem semver_validation_iff_witness :
    (is_valid_semver "1.2" = true ↔
      (matchesSemverPatternSpec "1.2" = true ∨
        (("1.2" : String).data.getLast? = some '\n' ∧
          semverCoreList ("1.2" : String).data.dropLast = true))) ∧
    (get_abs_data_path sampleCtx "acme" "1.2" "repo" "" =
        .error .invalidVersionArg ↔
      (("1.2" : String) ≠ "latest" ∧ is_valid_semver "1.2" = false)) :=
  semver_validation_iff sampleCtx "acme" "1.2" "repo" ""
    (.inr (.inl rfl)) (.inl rfl)

/-- Counterexample to C9 as stated: a call with location `"local"` and an
empty parent folder succeeds and returns the relative path
`acme/v2.1.0`, which is not absolute — the code never makes the joined
path absolute. -/
theorem relative_result_counterexample :
    get_abs_data_path sampleCtx "acme" "latest" "local" "" =
      .ok ("acme/v2.1.0", ["Path does not exist: acme/v2.1.0"]) ∧
    isAbs "acme/v2.1.0" = false :=
  ⟨rfl, by decide⟩

/-- C9 (amended): a successful resolution returns its path independently
of what exists on disk — with nothing on disk the same path is still
returned, the missing-path warning being the only diagnostic — and the
returned path is absolute provided the base being joined is absolute: the
package directory, the supplied parent folder for `local`, or the
environment override for `get_from_env`. -/
theorem buildPath_branch_abs (base : String) (r : Except Err Record)
    (key : String) (p : String)
    (h : r.bind (fun record => (pathField record key).map
      fun rel => ospath_join base rel) = .ok p)
    (hb : isAbs base = true) : isAbs p = true := by
  cases r with
  | error e => simp [Except.bind] at h
  | ok record =>
    simp only [Except.bind] at h
    cases hpf : pathField record key with
    | error e => rw [hpf] at h; simp [Except.map] at h
    | ok rel =>
      rw [hpf] at h
      simp [Except.map] at h
      rw [← h]
      exact ospath_join_isAbs base rel hb

theorem resolve_success_nonexistent_and_abs (ctx : Ctx)
    (name version location lpf p : String) (w : List String)
    (hok : get_abs_data_path ctx name version location lpf = .ok (p, w)) :
    (get_abs_data_path { ctx with pathExists := fun _ => false }
        name version location lpf = .ok (p, ["Path does not exist: " ++ p])) ∧
    (isAbs ctx.pkg_dir = true →
      (location = "local" → isAbs lpf = true) →
      (location = "get_from_env" → ctx.env = "" ∨ isAbs ctx.env = true) →
      isAbs p = true) := by
  have hcore : resolve_core ctx.env ctx.pkg_dir ctx.manifest
      name version location lpf = .ok p := by
    unfold get_abs_data_path at hok
    cases hc : resolve_core ctx.env ctx.pkg_dir ctx.manifest
        name version location lpf with
    | error e => rw [hc] at hok; simp [Except.map] at hok
    | ok q =>
      rw [hc] at hok
      simp [Except.map, finish] at hok
      rw [hok.1]
  constructor
  · simp [get_abs_data_path, hcore, Except.map, finish]
  · intro habs hlocal henv
    by_cases h1 : lpf ≠ "" ∧ location ≠ "local"
    · rw [show resolve_core ctx.env ctx.pkg_dir ctx.manifest
          name version location lpf = .error .invalidParentFolder from by
        simp only [resolve_core, if_pos h1]] at hcore
      simp at hcore
    · rw [resolve_core_unfold ctx.env ctx.pkg_dir ctx.manifest
        name version location lpf h1] at hcore
      by_cases hloc : location = "get_from_env" ∨ location = "repo" ∨ location = "local"
      · rw [if_neg (not_not_intro hloc)] at hcore
        by_cases hver : is_valid_semver version = true ∨ version = "latest"
        · rw [if_neg (not_not_intro hver)] at hcore
          by_cases hG : location = "get_from_env"
          · rw [if_pos hG] at hcore
            cases hri : resolveIndex ctx.manifest name version with
            | error e => rw [hri] at hcore; simp [Except.bind] at hcore
            | ok idx =>
              rw [hri] at hcore
              simp only [Except.bind] at hcore
              unfold buildPath at hcore
              by_cases hc1 : location = "repo" ∨ (location = "get_from_env" ∧ ctx.env = "")
              · rw [if_pos hc1] at hcore
                exact buildPath_branch_abs (get_data_dir ctx.pkg_dir) _ "repo" p hcore
                  (ospath_join_isAbs ctx.pkg_dir "data" habs)
              · rw [if_neg hc1] at hcore
                by_cases hc2 : location = "local" ∨ (location = "get_from_env" ∧ ctx.env ≠ "")
                · rw [if_pos hc2] at hcore
                  have henvabs : isAbs ctx.env = true := by
                    rcases hc2 with hL | ⟨-, hne⟩
                    · exact absurd (hG.symm.trans hL) (by decide)
                    · rcases henv hG with he | he
                      · exact absurd he hne
                      · exact he
                  exact buildPath_branch_abs ctx.env _ "local" p hcore henvabs
                · rw [if_neg hc2] at hcore
                  simp at hcore
          · rw [if_neg hG] at hcore
            cases hri : resolveIndex ctx.manifest name version with
            | error e => rw [hri] at hcore; simp [Except.bind] at hcore
            | ok idx =>
              rw [hri] at hcore
              simp only [Except.bind] at hcore
              unfold buildPath at hcore
              by_cases hc1 : location = "repo" ∨ (location = "get_from_env" ∧ lpf = "")
              · rw [if_pos hc1] at hcore
                exact buildPath_branch_abs (get_data_dir ctx.pkg_dir) _ "repo" p hcore
                  (ospath_join_isAbs ctx.pkg_dir "data" habs)
              · rw [if_neg hc1] at hcore
                by_cases hc2 : location = "local" ∨ (location = "get_from_env" ∧ lpf ≠ "")
                · rw [if_pos hc2] at hcore
                  have hlpfabs : isAbs lpf = true := by
                    rcases hc2 with hL | ⟨hG2, -⟩
                    · exact hlocal hL
                    · exact absurd hG2 hG
                  exact buildPath_branch_abs lpf _ "local" p hcore hlpfabs
                · rw [if_neg hc2] at hcore
                  simp at hcore
        · rw [if_pos hver] at hcore
          simp at hcore
      · rw [if_pos hloc] at hcore
        simp at hcore

/-- Witness for C9 (amended): the sample `repo` resolution of `acme`
still succeeds with nothing on disk, warning only, and its path is
absolute. -/
theorem resolve_success_nonexistent_and_abs_witness :
    (get_abs_data_path { sampleCtx with pathExists := fun _ => false }
        "acme" "latest" "repo" "" =
      .ok ("/pkg/zlflodata/data/public/acme/v2.1.0",
        ["Path does not exist: " ++ "/pkg/zlflodata/data/public/acme/v2.1.0"])) ∧
    (isAbs sampleCtx.pkg_dir = true →
      ("repo" = "local" → isAbs "" = true) →
      ("repo" = "get_from_env" → sampleCtx.env = "" ∨ isAbs sampleCtx.env = true) →
      isAbs "/pkg/zlflodata/data/public/acme/v2.1.0" = true) :=
  resolve_success_nonexistent_and_abs sampleCtx "acme" "latest" "repo" ""
    "/pkg/zlflodata/data/public/acme/v2.1.0"
    ["Path does not exist: /pkg/zlflodata/data/public/acme/v2.1.0"] rfl
